import Mathlib

/-!
Verification of the core logic of `src/frontend/src/app.js` (Rift Rewind):
the rate-limited, cached API access layer and the leaderboard merge
algorithm, shallowly embedded in Lean.  Timestamps are modelled as `Nat`
milliseconds, HTTP transports as explicit response values, and the
browser's `localStorage` blob as an `Option` of the decoded list.
-/

namespace RiftRewind

/-! ## Rate limiting (`makeApiRequest`, lines 173-186)

`makeApiRequest` keeps a single `lastRequestTime` and sleeps until at
least `REQUEST_DELAY` milliseconds have passed since the last admitted
request before issuing the HTTP call and updating `lastRequestTime`.
We model the admission instant of one sequential call: if the current
clock `now` is within `REQUEST_DELAY` of the previous admission the call
sleeps exactly until `lastRequestTime + REQUEST_DELAY`; otherwise it is
admitted immediately at `now`. -/

def REQUEST_DELAY : Nat := 1200

def admissionTime (lastRequestTime now : Nat) : Nat :=
  if now - lastRequestTime < REQUEST_DELAY then lastRequestTime + REQUEST_DELAY else now

/-- The sequence of admission instants produced by non-overlapping
`makeApiRequest` calls arriving at the given clock readings, starting
from the given `lastRequestTime`: each call starts only after the
previous call's admission has written `lastRequestTime`, so every call
reads the value written by its predecessor.  This models the sequential
executions only; `overlappingAdmissionTimes` below models overlapping
calls. -/
def admissionTimes (lastRequestTime : Nat) : List Nat → List Nat
  | [] => []
  | now :: calls =>
    admissionTime lastRequestTime now :: admissionTimes (admissionTime lastRequestTime now) calls

/-- The admission instants of a batch of overlapping `makeApiRequest`
calls: each call reads `lastRequestTime` synchronously on entry, and
writes it back only after its sleep resolves, so calls that are all
invoked while the first of them is still sleeping (e.g. repeated Enter
keypresses during a pending search) all read the same stale
`lastRequestTime` and compute their admission instants from it, with no
recheck of the gate on wake-up. -/
def overlappingAdmissionTimes (lastRequestTime : Nat) (calls : List Nat) : List Nat :=
  calls.map (admissionTime lastRequestTime)

/-- `a` lies in the trailing window of width `w` ending at instant `t`. -/
def inWindow (t w a : Nat) : Bool := decide (a ≤ t) && decide (t < a + w)

def countInWindow (admissions : List Nat) (t w : Nat) : Nat :=
  (admissions.filter (inWindow t w)).length

/-- Two instants separated by at least the minimum request spacing. -/
def gapLe (a b : Nat) : Prop := a + REQUEST_DELAY ≤ b

instance : IsTrans Nat gapLe :=
  ⟨fun _ _ _ h₁ h₂ => by unfold gapLe at *; omega⟩

/-! ## Data model

Shapes of the upstream API payloads consumed by `app.js`.  `rank` is
`Option String` because apex-tier league entries carry no usable
division and `rankValues[rankedData.rank]` then falls back to `0`. -/

structure Summoner where
  id : String
  name : String
  profileIconId : Nat
  summonerLevel : Nat
deriving Repr, DecidableEq

structure LeagueEntry where
  queueType : String
  tier : String
  rank : Option String
  leaguePoints : Nat
  wins : Nat
  losses : Nat
deriving Repr, DecidableEq

structure Mastery where
  championId : Nat
  championLevel : Nat
  championPoints : Nat
deriving Repr, DecidableEq

/-! ## Response cache (`requestCache`, lines 112-161)

`requestCache` is a `Map` from string cache keys to
`{ data, timestamp }` entries; `Map.set` replaces an existing binding in
place or appends a new one. -/

structure CacheEntry (α : Type) where
  data : α
  timestamp : Nat
deriving Repr, DecidableEq

abbrev Cache (α : Type) : Type := List (String × CacheEntry α)

def cacheGet {α : Type} : Cache α → String → Option (CacheEntry α)
  | [], _ => none
  | kv :: rest, key => if kv.1 = key then some kv.2 else cacheGet rest key

def cacheSet {α : Type} : Cache α → String → CacheEntry α → Cache α
  | [], key, e => [(key, e)]
  | kv :: rest, key, e =>
    if kv.1 = key then (key, e) :: rest else kv :: cacheSet rest key e

/-- The read pattern shared by all three fetchers: a cached entry is
served iff it exists and `now - cached.timestamp < 300000`; a stale
entry is left in place (only `cacheSet` after a successful network fetch
overwrites it). -/
def cacheRead {α : Type} (cache : Cache α) (key : String) (now : Nat) : Option α :=
  match cacheGet cache key with
  | some cached => if now - cached.timestamp < 300000 then some cached.data else none
  | none => none

/-- `String.prototype.toLowerCase` as the character-wise lower-casing of
the string. -/
def jsToLower (s : String) : String := ⟨s.data.map Char.toLower⟩

/-- Cache key of `fetchSummonerData` (line 113): the summoner name is
lower-cased. -/
def summonerCacheKey (region summonerName : String) : String :=
  "summoner-" ++ region ++ "-" ++ jsToLower summonerName

/-- Cache key of `fetchLeagueData` (line 130): the summoner id is used
verbatim. -/
def leagueCacheKey (region summonerId : String) : String :=
  "league-" ++ region ++ "-" ++ summonerId

/-- Cache key of `fetchMasteryData` (line 147): the summoner id is used
verbatim. -/
def masteryCacheKey (region summonerId : String) : String :=
  "mastery-" ++ region ++ "-" ++ summonerId

/-! ## HTTP layer (`makeApiRequest`, lines 188-246)

A transport is a list of `HttpResponse`s that successive outbound HTTP
attempts would receive; the pair returned by `makeApiRequest` carries
the number of outbound attempts actually made.  `data` is the parsed
JSON payload consulted on success. -/

structure HttpResponse (α : Type) where
  status : Nat
  body : String
  data : α
deriving Repr, DecidableEq

/-- `response.ok` of the fetch API: status in the range 200-299. -/
def responseOk (status : Nat) : Bool := decide (200 ≤ status) && decide (status ≤ 299)

/-- The `errorBody || fallback` pattern of the error messages. -/
def errorDetail (body fallback : String) : String :=
  if body = "" then fallback else body

/-- The status-code dispatch of lines 214-228. -/
def classifyError (status : Nat) (body : String) : String :=
  if status = 401 then
    "API Authentication Failed (401): " ++ errorDetail body "Invalid or expired API key"
  else if status = 403 then
    "API Access Forbidden (403): " ++ errorDetail body "API key lacks required permissions"
  else if status = 404 then
    "Summoner not found (404): " ++ errorDetail body "The requested summoner does not exist"
  else if status = 429 then
    "Rate limit exceeded (429): " ++ errorDetail body "Too many requests, please wait"
  else if status = 500 then
    "Riot API Server Error (500): " ++ errorDetail body "Internal server error"
  else if status = 503 then
    "Riot API Unavailable (503): " ++ errorDetail body "Service temporarily unavailable"
  else
    "API request failed (" ++ toString status ++ "): " ++ errorDetail body "Unknown error"

/-- `makeApiRequest` performs exactly one `fetch`; a non-ok status is
converted into a thrown error immediately — there is no retry loop, so
only the first response of the transport is ever consumed.  An empty
transport models a transport-level connectivity failure (the
`TypeError` branch of the catch block). -/
def makeApiRequest {α : Type} (responses : List (HttpResponse α)) : Except String α × Nat :=
  match responses with
  | [] =>
    (.error
      "Network error: Unable to connect to Riot Games API. Please check your internet connection.",
      1)
  | r :: _ =>
    if responseOk r.status then (.ok r.data, 1)
    else (.error (classifyError r.status r.body), 1)

/-! ## Resource fetchers (lines 112-161) -/

structure FetchResult (α : Type) where
  result : Except String α
  cache : Cache α
  networkCalls : Nat

def fetchSummonerData (cache : Cache Summoner) (summonerName region : String) (now : Nat)
    (responses : List (HttpResponse Summoner)) : FetchResult Summoner :=
  let cacheKey := summonerCacheKey region summonerName
  match cacheRead cache cacheKey now with
  | some data => ⟨.ok data, cache, 0⟩
  | none =>
    match makeApiRequest responses with
    | (.error e, n) => ⟨.error e, cache, n⟩
    | (.ok data, n) => ⟨.ok data, cacheSet cache cacheKey ⟨data, now⟩, n⟩

def fetchLeagueData (cache : Cache (List LeagueEntry)) (summonerId region : String) (now : Nat)
    (responses : List (HttpResponse (List LeagueEntry))) : FetchResult (List LeagueEntry) :=
  let cacheKey := leagueCacheKey region summonerId
  match cacheRead cache cacheKey now with
  | some data => ⟨.ok data, cache, 0⟩
  | none =>
    match makeApiRequest responses with
    | (.error e, n) => ⟨.error e, cache, n⟩
    | (.ok data, n) => ⟨.ok data, cacheSet cache cacheKey ⟨data, now⟩, n⟩

/-- `fetchMasteryData` stores the full payload in the cache but returns
`data.slice(0, 5)` on the network path; the cache-hit path returns the
stored entry without slicing. -/
def fetchMasteryData (cache : Cache (List Mastery)) (summonerId region : String) (now : Nat)
    (responses : List (HttpResponse (List Mastery))) : FetchResult (List Mastery) :=
  let cacheKey := masteryCacheKey region summonerId
  match cacheRead cache cacheKey now with
  | some data => ⟨.ok data, cache, 0⟩
  | none =>
    match makeApiRequest responses with
    | (.error e, n) => ⟨.error e, cache, n⟩
    | (.ok data, n) => ⟨.ok (data.take 5), cacheSet cache cacheKey ⟨data, now⟩, n⟩

/-! ## Scoring (`calculatePlayerScore`, lines 341-355) -/

def tierValues (tier : String) : Nat :=
  if tier = "IRON" then 1
  else if tier = "BRONZE" then 2
  else if tier = "SILVER" then 3
  else if tier = "GOLD" then 4
  else if tier = "PLATINUM" then 5
  else if tier = "EMERALD" then 6
  else if tier = "DIAMOND" then 7
  else if tier = "MASTER" then 8
  else if tier = "GRANDMASTER" then 9
  else if tier = "CHALLENGER" then 10
  else 0

def rankValues : Option String → Nat
  | some r =>
    if r = "IV" then 1
    else if r = "III" then 2
    else if r = "II" then 3
    else if r = "I" then 4
    else 0
  | none => 0

def calculatePlayerScore (rankedData : LeagueEntry) : Nat :=
  tierValues rankedData.tier * 1000 + rankValues rankedData.rank * 100 +
    rankedData.leaguePoints

/-! ## Leaderboard (`addToLeaderboard` and friends, lines 302-401)

`localStorage` holds at most one serialized leaderboard blob under
`STORAGE_KEYS.leaderboard`; we model the store as `Option` of the
decoded list (`none` = the key was never written). -/

structure Player where
  id : String
  name : String
  region : String
  tier : String
  rank : Option String
  leaguePoints : Nat
  wins : Nat
  losses : Nat
  profileIconId : Nat
  summonerLevel : Nat
  lastUpdated : Nat
  score : Nat
deriving Repr, DecidableEq

/-- `getLeaderboard` (lines 394-397): `stored ? JSON.parse(stored) : []`. -/
def getLeaderboard (stored : Option (List Player)) : List Player :=
  match stored with
  | some l => l
  | none => []

/-- `filterLeaderboardByRegion` (lines 388-392). -/
def filterLeaderboardByRegion (selectedRegion : String) (leaderboard : List Player) :
    List Player :=
  if selectedRegion = "all" then leaderboard
  else leaderboard.filter (fun p => p.region = selectedRegion)

/-- `leagues.find(l => l.queueType === 'RANKED_SOLO_5x5')` (line 304). -/
def findRankedSolo (leagues : List LeagueEntry) : Option LeagueEntry :=
  leagues.find? (fun l => decide (l.queueType = "RANKED_SOLO_5x5"))

/-- The `playerData` record built at lines 308-321. -/
def buildPlayerData (summoner : Summoner) (rankedData : LeagueEntry) (region : String)
    (now : Nat) : Player :=
  { id := summoner.id
    name := summoner.name
    region := region
    tier := rankedData.tier
    rank := rankedData.rank
    leaguePoints := rankedData.leaguePoints
    wins := rankedData.wins
    losses := rankedData.losses
    profileIconId := summoner.profileIconId
    summonerLevel := summoner.summonerLevel
    lastUpdated := now
    score := calculatePlayerScore rankedData }

/-- `findIndex` + `splice(existingIndex, 1)` (lines 324-327): drop the
first entry sharing the new record's `(id, region)` identity key. -/
def identityErase (leaderboard : List Player) (playerData : Player) : List Player :=
  leaderboard.eraseP (fun p => decide (p.id = playerData.id ∧ p.region = playerData.region))

/-- The comparator `(a, b) => b.score - a.score` (line 330): `a` may come
before `b` iff `b.score ≤ a.score`. -/
def sortLe (a b : Player) : Bool := decide (b.score ≤ a.score)

/-- `if (leaderboard.length > 100) leaderboard.splice(100)` (lines 333-335). -/
def truncate100 (lb : List Player) : List Player :=
  if 100 < lb.length then lb.take 100 else lb

/-- The upsert of lines 323-335: drop the first entry with the same
`(id, region)`, push the new record, sort descending by score, and
truncate to 100 entries. -/
def upsertPlayer (leaderboard : List Player) (playerData : Player) : List Player :=
  truncate100 (((identityErase leaderboard playerData) ++ [playerData]).mergeSort sortLe)

/-- `addToLeaderboard` (lines 302-339), acting on the storage blob: it
reads the stored leaderboard, returns without writing when no ranked-solo
entry exists, and otherwise persists the upserted list as one write. -/
def addToLeaderboard (stored : Option (List Player)) (summoner : Summoner)
    (leagues : List LeagueEntry) (region : String) (now : Nat) : Option (List Player) :=
  let leaderboard := getLeaderboard stored
  match findRankedSolo leagues with
  | none => stored
  | some rankedData =>
    some (upsertPlayer leaderboard (buildPlayerData summoner rankedData region now))

/-! ## Input validation and the search pipeline (lines 55-110, 403-405) -/

/-- The character class of the JavaScript regexp `\s` (ECMA-262
WhiteSpace and LineTerminator code points). -/
def jsWhitespace (c : Char) : Bool :=
  c = ' ' || c = '\t' || c = '\n' || c.val = 0x0b || c.val = 0x0c || c = '\r' ||
  c.val = 0xa0 || c.val = 0x1680 || (0x2000 ≤ c.val && c.val ≤ 0x200a) ||
  c.val = 0x2028 || c.val = 0x2029 || c.val = 0x202f || c.val = 0x205f ||
  c.val = 0x3000 || c.val = 0xfeff

/-- One character of the class `[a-zA-Z0-9\s]` used by
`validateSummonerName`. -/
def validNameChar (c : Char) : Bool :=
  ('a' ≤ c && c ≤ 'z') || ('A' ≤ c && c ≤ 'Z') || ('0' ≤ c && c ≤ '9') || jsWhitespace c

/-- `validateSummonerName` (lines 403-405): `/^[a-zA-Z0-9\s]{3,16}$/`. -/
def validateSummonerName (name : String) : Bool :=
  decide (3 ≤ name.length) && decide (name.length ≤ 16) && name.toList.all validNameChar

/-- `String.prototype.trim`, which strips the same whitespace class from
both ends. -/
def jsTrim (s : String) : String :=
  ⟨((s.toList.dropWhile jsWhitespace).reverse.dropWhile jsWhitespace).reverse⟩

inductive SearchOutcome
  | emptyName
  | invalidName
  | fetchFailed (msg : String)
  | success (summoner : Summoner) (leagues : List LeagueEntry) (masteries : List Mastery)
deriving Repr, DecidableEq

/-- Per-endpoint transports for one `handleSearch` run; the dependent
fetches receive the summoner id resolved by the first fetch. -/
structure NetworkOracle where
  summoner : List (HttpResponse Summoner)
  league : String → List (HttpResponse (List LeagueEntry))
  mastery : String → List (HttpResponse (List Mastery))

structure SearchResult where
  outcome : SearchOutcome
  summonerCache : Cache Summoner
  leagueCache : Cache (List LeagueEntry)
  masteryCache : Cache (List Mastery)
  stored : Option (List Player)
  networkCalls : Nat

/-- `handleSearch` (lines 55-110): trim and validate the input, then run
the three sequential fetches; any thrown error lands in the catch block
before `addToLeaderboard` is reached. -/
def handleSearch (input region : String) (sc : Cache Summoner)
    (lc : Cache (List LeagueEntry)) (mc : Cache (List Mastery))
    (stored : Option (List Player)) (now : Nat) (net : NetworkOracle) : SearchResult :=
  let summonerName := jsTrim input
  if summonerName = "" then ⟨.emptyName, sc, lc, mc, stored, 0⟩
  else if validateSummonerName summonerName = false then ⟨.invalidName, sc, lc, mc, stored, 0⟩
  else
    match fetchSummonerData sc summonerName region now net.summoner with
    | ⟨.error e, sc', n1⟩ => ⟨.fetchFailed e, sc', lc, mc, stored, n1⟩
    | ⟨.ok summoner, sc', n1⟩ =>
      match fetchLeagueData lc summoner.id region now (net.league summoner.id) with
      | ⟨.error e, lc', n2⟩ => ⟨.fetchFailed e, sc', lc', mc, stored, n1 + n2⟩
      | ⟨.ok leagues, lc', n2⟩ =>
        match fetchMasteryData mc summoner.id region now (net.mastery summoner.id) with
        | ⟨.error e, mc', n3⟩ => ⟨.fetchFailed e, sc', lc', mc', stored, n1 + n2 + n3⟩
        | ⟨.ok masteries, mc', n3⟩ =>
          ⟨.success summoner leagues masteries, sc', lc', mc',
            addToLeaderboard stored summoner leagues region now, n1 + n2 + n3⟩

/-! ## Auxiliary definitions for the statements -/

/-- The validation pattern as the spec words it: `^[A-Za-z0-9 ]{3,16}$`
(letters, digits and the plain space character only).  Stated for
comparison against `validateSummonerName`, whose regexp uses `\s`. -/
def specNamePattern (name : String) : Bool :=
  decide (3 ≤ name.length) && decide (name.length ≤ 16) &&
  name.toList.all
    (fun c => ('A' ≤ c && c ≤ 'Z') || ('a' ≤ c && c ≤ 'z') || ('0' ≤ c && c ≤ '9') || c = ' ')

/-- Two leaderboard entries with different `(playerId, region)` identity
keys. -/
def distinctKey (p q : Player) : Prop := ¬(p.id = q.id ∧ p.region = q.region)

/-- A transport on which every outbound HTTP attempt fails at the
connection level. -/
def emptyOracle : NetworkOracle := ⟨[], fun _ => [], fun _ => []⟩

/-- A concrete mastery payload with six entries. -/
def sixMasteries : List Mastery :=
  [⟨1, 7, 100⟩, ⟨2, 6, 90⟩, ⟨3, 5, 80⟩, ⟨4, 5, 70⟩, ⟨5, 4, 60⟩, ⟨6, 4, 50⟩]

/-- A concrete summoner used by witnesses. -/
def wSummoner : Summoner := ⟨"sid1", "Alice", 10, 30⟩

/-- A concrete Gold II ranked-solo league entry used by witnesses. -/
def wGold : LeagueEntry := ⟨"RANKED_SOLO_5x5", "GOLD", some "II", 40, 10, 5⟩

/-! ## Theorems -/

theorem admissionTime_gap (last now : Nat) : gapLe last (admissionTime last now) := by
  unfold gapLe admissionTime REQUEST_DELAY
  split <;> omega

theorem admissionTimes_headGap (last : Nat) (calls : List Nat) :
    ∀ y ∈ (admissionTimes last calls).head?, gapLe last y := by
  cases calls with
  | nil => simp [admissionTimes]
  | cons now calls => simpa [admissionTimes] using admissionTime_gap last now

theorem admissionTimes_chain (last : Nat) (calls : List Nat) :
    List.Chain' gapLe (admissionTimes last calls) := by
  induction calls generalizing last with
  | nil => simp [admissionTimes]
  | cons now calls ih =>
    simp only [admissionTimes]
    exact List.chain'_cons'.mpr ⟨admissionTimes_headGap _ _, ih _⟩

theorem chain'_head_getLast :
    ∀ (l : List Nat) (a : Nat), List.Chain' gapLe (a :: l) →
      ∀ y ∈ (a :: l).getLast?, a + REQUEST_DELAY * l.length ≤ y := by
  intro l
  induction l with
  | nil =>
    intro a _ y hy
    simp only [List.getLast?_singleton, Option.mem_def, Option.some.injEq] at hy
    subst hy; simp
  | cons b m ih =>
    intro a hc y hy
    rw [List.chain'_cons] at hc
    rw [List.getLast?_cons_cons] at hy
    have hbm := ih b hc.2 y hy
    have hab : a + REQUEST_DELAY ≤ b := hc.1
    have hmul : REQUEST_DELAY * (b :: m).length = REQUEST_DELAY * m.length + REQUEST_DELAY := by
      simp [List.length_cons, Nat.mul_add, Nat.mul_one]
    omega

theorem countInWindow_chain_le (l : List Nat) (hc : List.Chain' gapLe l) (t w : Nat) :
    countInWindow l t w ≤ 1 ∨ REQUEST_DELAY * (countInWindow l t w - 1) < w := by
  have hcf : List.Chain' gapLe (l.filter (inWindow t w)) :=
    hc.sublist (List.filter_sublist l)
  rcases hfe : l.filter (inWindow t w) with _ | ⟨x, rest⟩
  · left; simp [countInWindow, hfe]
  · rcases rest with _ | ⟨y, m⟩
    · left; simp [countInWindow, hfe]
    · right
      rw [hfe] at hcf
      have hlast : (x :: y :: m).getLast? = some ((x :: y :: m).getLast (by simp)) :=
        List.getLast?_eq_getLast _ _
      have hbound := chain'_head_getLast (y :: m) x hcf _ hlast
      have hxmem : x ∈ l.filter (inWindow t w) := by rw [hfe]; simp
      have hzmem : (x :: y :: m).getLast (by simp) ∈ l.filter (inWindow t w) := by
        rw [hfe]; exact List.getLast_mem _
      have hxw := (List.mem_filter.mp hxmem).2
      have hzw := (List.mem_filter.mp hzmem).2
      simp only [inWindow, Bool.and_eq_true, decide_eq_true_eq] at hxw hzw
      have hcount : countInWindow l t w = m.length + 2 := by
        simp [countInWindow, hfe]
      rw [hcount]
      simp only [List.length_cons] at hbound
      have hsub : m.length + 2 - 1 = m.length + 1 := rfl
      rw [hsub]
      omega

/-- Claim C1, counterexample: the claimed window bounds fail for
overlapping `makeApiRequest` calls.  Twenty-one calls invoked at clock
instants 100, 110, ..., 300 while `lastRequestTime = 0` all read the
stale value 0, sleep until instant 1200, and are all admitted there
without rechecking the gate — 21 admissions inside the trailing
1,000 ms window at instant 1200, exceeding the claimed bound of 20. -/
theorem rateLimit_overlap_counterexample :
    overlappingAdmissionTimes 0 ((List.range 21).map (fun i => 100 + 10 * i)) =
      List.replicate 21 1200 ∧
    countInWindow
      (overlappingAdmissionTimes 0 ((List.range 21).map (fun i => 100 + 10 * i)))
      1200 1000 = 21 ∧
    20 < countInWindow
      (overlappingAdmissionTimes 0 ((List.range 21).map (fun i => 100 + 10 * i)))
      1200 1000 := by
  refine ⟨?_, ?_, ?_⟩ <;> decide

/-- Claim C1 as amended: for every sequence of non-overlapping (one
completing before the next begins) admitted outbound requests — each
admission being the point where `makeApiRequest` updates
`lastRequestTime` and issues the HTTP call — at every instant `t` the
number of admissions within the trailing 1,000 ms is at most 20 and the
number within the trailing 120,000 ms is at most 100: the 1,200 ms
minimum spacing enforced between consecutive admissions implies both
quotas.  Overlapping calls share a stale `lastRequestTime` and can
exceed the short-window quota (see the counterexample). -/
theorem rateLimit_window_bounds (lastRequestTime : Nat) (calls : List Nat) (t : Nat) :
    countInWindow (admissionTimes lastRequestTime calls) t 1000 ≤ 20 ∧
    countInWindow (admissionTimes lastRequestTime calls) t 120000 ≤ 100 := by
  have hc := admissionTimes_chain lastRequestTime calls
  constructor
  · rcases countInWindow_chain_le _ hc t 1000 with h | h
    · omega
    · unfold REQUEST_DELAY at h; omega
  · rcases countInWindow_chain_le _ hc t 120000 with h | h
    · omega
    · unfold REQUEST_DELAY at h; omega

/-- Claim C2, counterexample: the claim says a fetch answered with 429
retries (so with a transport whose first response is 429 and whose second
is a success, a retrying client would succeed within the 3-attempt
budget); `makeApiRequest` instead fails terminally after exactly one
outbound attempt, never consuming the second response. -/
theorem retry_counterexample :
    makeApiRequest [({status := 429, body := "", data := 0} : HttpResponse Nat),
        {status := 200, body := "", data := 7}] =
      (.error "Rate limit exceeded (429): Too many requests, please wait", 1) := by
  rfl

/-- Claim C2 as amended: a resource fetch whose HTTP response status is
429, 500 or 503 fails terminally on the first attempt — no retry, no
backoff — with the error produced by `classifyError`, which carries the
status and the response detail. -/
theorem makeApiRequest_fails_immediately {α : Type} (r : HttpResponse α)
    (rest : List (HttpResponse α))
    (h : r.status = 429 ∨ r.status = 500 ∨ r.status = 503) :
    makeApiRequest (r :: rest) = (.error (classifyError r.status r.body), 1) := by
  rcases h with h | h | h <;> simp [makeApiRequest, responseOk, h]

/-- Witness for `makeApiRequest_fails_immediately` at a concrete 500
response. -/
theorem makeApiRequest_fails_immediately_witness :
    makeApiRequest [({status := 500, body := "boom", data := 0} : HttpResponse Nat)] =
      (.error (classifyError 500 "boom"), 1) :=
  makeApiRequest_fails_immediately _ [] (Or.inr (Or.inl rfl))

/-- Claim C3, counterexample: the input `"ab\tcd"` (a tab inside) does not
match the claimed pattern `^[A-Za-z0-9 ]{3,16}$`, yet `handleSearch` does
not fail with `InvalidInput` — the code's regexp uses `\s`, which accepts
the tab — and one network call is issued. -/
theorem invalid_name_counterexample :
    specNamePattern "ab\tcd" = false ∧
    (handleSearch "ab\tcd" "na1" [] [] [] none 0 emptyOracle).outcome ≠
      SearchOutcome.invalidName ∧
    (handleSearch "ab\tcd" "na1" [] [] [] none 0 emptyOracle).networkCalls = 1 := by
  refine ⟨by decide, ?_, ?_⟩ <;> decide

/-- Claim C3 as amended: `handleSearch` validates the trimmed input
against the code's pattern `^[a-zA-Z0-9\s]{3,16}$`; whenever the trimmed
input is nonempty and fails that pattern, the search fails with the
invalid-name outcome, performs zero network calls, and leaves every
cache and the stored leaderboard untouched. -/
theorem handleSearch_invalid_name_no_network (input region : String) (sc : Cache Summoner)
    (lc : Cache (List LeagueEntry)) (mc : Cache (List Mastery))
    (stored : Option (List Player)) (now : Nat) (net : NetworkOracle)
    (hne : jsTrim input ≠ "")
    (hval : validateSummonerName (jsTrim input) = false) :
    handleSearch input region sc lc mc stored now net =
      ⟨.invalidName, sc, lc, mc, stored, 0⟩ := by
  unfold handleSearch
  simp [hne, hval]

/-- Witness for `handleSearch_invalid_name_no_network` at the concrete
input `"ab!"`. -/
theorem handleSearch_invalid_name_no_network_witness :
    handleSearch "ab!" "na1" [] [] [] none 0 emptyOracle =
      ⟨.invalidName, [], [], [], none, 0⟩ :=
  handleSearch_invalid_name_no_network "ab!" "na1" [] [] [] none 0 emptyOracle
    (by decide) (by decide)

/-- Claim C4, counterexample: a mastery lookup served from the cache
returns the stored payload unsliced — here six entries, refuting
"at most 5 entries … including when fetchMasteryData serves the response
from the cache".  Only the network path applies `.slice(0, 5)`. -/
theorem mastery_cache_counterexample :
    (fetchMasteryData [(masteryCacheKey "na1" "sid", ⟨sixMasteries, 0⟩)]
        "sid" "na1" 1000 []).result = .ok sixMasteries ∧
    sixMasteries.length = 6 := by
  exact ⟨rfl, rfl⟩

/-- Claim C4 as amended: on a cache miss the mastery fetch returns the
first 5 entries of the upstream payload in upstream order (and caches
the full payload); on a cache hit it returns the stored payload
unsliced, so a cache-served result may exceed 5 entries. -/
theorem fetchMasteryData_truncation (cache : Cache (List Mastery))
    (summonerId region : String) (now : Nat) (r : HttpResponse (List Mastery))
    (rest : List (HttpResponse (List Mastery))) (vs : List Mastery) :
    (cacheRead cache (masteryCacheKey region summonerId) now = none →
      (fetchMasteryData cache summonerId region now (r :: rest)).result =
        (if responseOk r.status then .ok (r.data.take 5)
         else .error (classifyError r.status r.body)) ∧
      (r.data.take 5).length ≤ 5) ∧
    (cacheRead cache (masteryCacheKey region summonerId) now = some vs →
      (fetchMasteryData cache summonerId region now (r :: rest)).result = .ok vs) := by
  constructor
  · intro hmiss
    refine ⟨?_, by simp [List.length_take]⟩
    by_cases hok : responseOk r.status <;>
      simp [fetchMasteryData, hmiss, makeApiRequest, hok]
  · intro hhit
    simp [fetchMasteryData, hhit]

/-- Witness for `fetchMasteryData_truncation`: the network path truncates
a six-entry payload to five; the cache path returns all six. -/
theorem fetchMasteryData_truncation_witness :
    ((fetchMasteryData [] "sid" "na1" 0
        [({status := 200, body := "", data := sixMasteries} : HttpResponse (List Mastery))]).result =
      (if responseOk 200 then .ok (sixMasteries.take 5)
       else .error (classifyError 200 "")) ∧
     (sixMasteries.take 5).length ≤ 5) ∧
    (fetchMasteryData [(masteryCacheKey "na1" "sid", ⟨sixMasteries, 0⟩)]
        "sid" "na1" 1000 []).result = .ok sixMasteries :=
  ⟨(fetchMasteryData_truncation [] "sid" "na1" 0 _ [] sixMasteries).1 (by decide),
   (fetchMasteryData_truncation [(masteryCacheKey "na1" "sid", ⟨sixMasteries, 0⟩)]
      "sid" "na1" 1000 ⟨200, "", []⟩ [] sixMasteries).2 (by decide)⟩

theorem cacheGet_cacheSet_self {α : Type} (cache : Cache α) (key : String) (e : CacheEntry α) :
    cacheGet (cacheSet cache key e) key = some e := by
  induction cache with
  | nil => simp [cacheSet, cacheGet]
  | cons kv rest ih =>
    by_cases h : kv.1 = key <;> simp [cacheSet, cacheGet, h, ih]

/-- Claim C5: a cache read returns the stored value iff an entry exists
for the key and `now - fetchedAt < 300000`; a get immediately after a put
with the same key and `now` returns the stored value; once more than
300,000 ms have elapsed the same key reads as absent; and a read (even a
failed fetch cycle after a stale read) never removes the entry — only a
successful network fetch overwrites the cache. -/
theorem cache_freshness_spec {α : Type} (cache : Cache α) (key : String) (now later : Nat)
    (v : α) (scache : Cache Summoner) (summonerName region : String) :
    (∀ w : α, cacheRead cache key now = some w ↔
      ∃ e, cacheGet cache key = some e ∧ e.data = w ∧ now - e.timestamp < 300000) ∧
    cacheRead (cacheSet cache key ⟨v, now⟩) key now = some v ∧
    (now + 300000 < later → cacheRead (cacheSet cache key ⟨v, now⟩) key later = none) ∧
    (fetchSummonerData scache summonerName region now []).cache = scache := by
  refine ⟨?_, ?_, ?_, ?_⟩
  · intro w
    cases hg : cacheGet cache key with
    | none => simp [cacheRead, hg]
    | some e =>
      by_cases hf : now - e.timestamp < 300000 <;> simp [cacheRead, hg, hf]
  · simp [cacheRead, cacheGet_cacheSet_self]
  · intro hlater
    have : ¬ later - now < 300000 := by omega
    simp [cacheRead, cacheGet_cacheSet_self, this]
  · unfold fetchSummonerData makeApiRequest
    rcases h : cacheRead scache (summonerCacheKey region summonerName) now with _ | d <;>
      simp [h]

/-- Witness for `cache_freshness_spec`: get-after-put returns the value
at the same instant and reads absent 300,001 ms later. -/
theorem cache_freshness_spec_witness :
    cacheRead (cacheSet ([] : Cache Nat) "k" ⟨7, 0⟩) "k" 0 = some 7 ∧
    cacheRead (cacheSet ([] : Cache Nat) "k" ⟨7, 0⟩) "k" 300001 = none :=
  ⟨(cache_freshness_spec [] "k" 0 300001 7 [] "x" "na1").2.1,
   (cache_freshness_spec [] "k" 0 300001 7 [] "x" "na1").2.2.1 (by decide)⟩

/-- Claim C6, counterexample: the cache fingerprints of the league and
mastery fetchers do not lower-case their identifier, so two summoner ids
differing only in letter case yield different cache keys, refuting the
claim for those resource kinds. -/
theorem cacheKey_case_counterexample :
    leagueCacheKey "na1" "ABC" ≠ leagueCacheKey "na1" "abc" ∧
    masteryCacheKey "na1" "ABC" ≠ masteryCacheKey "na1" "abc" ∧
    jsToLower "ABC" = jsToLower "abc" := by
  refine ⟨?_, ?_, ?_⟩ <;> decide

/-- Claim C6 as amended: every fingerprint has the shape
`{resource-kind}-{region}-{identifier}`, but only the summoner
fingerprint lower-cases its identifier (the player name), making it
case-insensitive; the league and mastery fingerprints use the summoner
id verbatim (two ids mapping to the same key are equal). -/
theorem cacheKey_normalization (region name n₁ n₂ id₁ id₂ : String) :
    summonerCacheKey region name = "summoner-" ++ region ++ "-" ++ jsToLower name ∧
    (jsToLower n₁ = jsToLower n₂ → summonerCacheKey region n₁ = summonerCacheKey region n₂) ∧
    leagueCacheKey region id₁ = "league-" ++ region ++ "-" ++ id₁ ∧
    masteryCacheKey region id₁ = "mastery-" ++ region ++ "-" ++ id₁ ∧
    (leagueCacheKey region id₁ = leagueCacheKey region id₂ → id₁ = id₂) ∧
    (masteryCacheKey region id₁ = masteryCacheKey region id₂ → id₁ = id₂) := by
  refine ⟨rfl, ?_, rfl, rfl, ?_, ?_⟩
  · intro h
    unfold summonerCacheKey
    rw [h]
  · intro h
    unfold leagueCacheKey at h
    have hd := congrArg String.data h
    simp only [String.data_append] at hd
    exact String.ext (List.append_cancel_left hd)
  · intro h
    unfold masteryCacheKey at h
    have hd := congrArg String.data h
    simp only [String.data_append] at hd
    exact String.ext (List.append_cancel_left hd)

/-- Witness for `cacheKey_normalization`: two names differing only in
case share a summoner cache key; a league key collision forces equal
ids. -/
theorem cacheKey_normalization_witness :
    summonerCacheKey "na1" "AbC" = summonerCacheKey "na1" "abc" ∧
    ("id9" : String) = "id9" :=
  ⟨(cacheKey_normalization "na1" "x" "AbC" "abc" "y" "y").2.1 (by decide),
   (cacheKey_normalization "na1" "x" "AbC" "abc" "id9" "id9").2.2.2.2.1 rfl⟩

/-- Claim C7: `calculatePlayerScore` is
`tierRank * 1000 + divisionRank * 100 + leaguePoints`, with the ten
tiers Iron..Challenger mapped to 1..10 (unknown tier to 0) and divisions
IV..I mapped to 1..4 (unknown or absent division to 0); Gold II at 40 LP
scores 4340, Challenger without a division at 850 LP scores 10850, and
the latter exceeds the former. -/
theorem calculatePlayerScore_spec (e : LeagueEntry) (t : String) (r : Option String) :
    calculatePlayerScore e =
      tierValues e.tier * 1000 + rankValues e.rank * 100 + e.leaguePoints ∧
    tierValues "IRON" = 1 ∧ tierValues "BRONZE" = 2 ∧ tierValues "SILVER" = 3 ∧
    tierValues "GOLD" = 4 ∧ tierValues "PLATINUM" = 5 ∧ tierValues "EMERALD" = 6 ∧
    tierValues "DIAMOND" = 7 ∧ tierValues "MASTER" = 8 ∧ tierValues "GRANDMASTER" = 9 ∧
    tierValues "CHALLENGER" = 10 ∧
    (t ∉ (["IRON", "BRONZE", "SILVER", "GOLD", "PLATINUM", "EMERALD", "DIAMOND",
        "MASTER", "GRANDMASTER", "CHALLENGER"] : List String) → tierValues t = 0) ∧
    rankValues (some "IV") = 1 ∧ rankValues (some "III") = 2 ∧
    rankValues (some "II") = 3 ∧ rankValues (some "I") = 4 ∧
    (r ∉ ([some "IV", some "III", some "II", some "I"] : List (Option String)) →
      rankValues r = 0) ∧
    calculatePlayerScore ⟨"RANKED_SOLO_5x5", "GOLD", some "II", 40, 10, 5⟩ = 4340 ∧
    calculatePlayerScore ⟨"RANKED_SOLO_5x5", "CHALLENGER", none, 850, 10, 5⟩ = 10850 ∧
    calculatePlayerScore ⟨"RANKED_SOLO_5x5", "GOLD", some "II", 40, 10, 5⟩ <
      calculatePlayerScore ⟨"RANKED_SOLO_5x5", "CHALLENGER", none, 850, 10, 5⟩ := by
  refine ⟨rfl, rfl, rfl, rfl, rfl, rfl, rfl, rfl, rfl, rfl, rfl, ?_, rfl, rfl, rfl, rfl,
    ?_, by decide, by decide, by decide⟩
  · intro h
    simp only [List.mem_cons, List.not_mem_nil, or_false, not_or] at h
    obtain ⟨h1, h2, h3, h4, h5, h6, h7, h8, h9, h10⟩ := h
    simp [tierValues, h1, h2, h3, h4, h5, h6, h7, h8, h9, h10]
  · intro h
    cases r with
    | none => rfl
    | some d =>
      simp only [List.mem_cons, List.not_mem_nil, or_false, not_or,
        Option.some.injEq] at h
      obtain ⟨h1, h2, h3, h4⟩ := h
      simp [rankValues, h1, h2, h3, h4]

/-- Witness for `calculatePlayerScore_spec`: an unknown tier and an
unknown division both score 0. -/
theorem calculatePlayerScore_spec_witness :
    tierValues "WOOD" = 0 ∧ rankValues (some "V") = 0 :=
  ⟨(calculatePlayerScore_spec ⟨"", "", none, 0, 0, 0⟩ "WOOD" none).2.2.2.2.2.2.2.2.2.2.2.1
      (by decide),
   (calculatePlayerScore_spec ⟨"", "", none, 0, 0, 0⟩ "WOOD"
      (some "V")).2.2.2.2.2.2.2.2.2.2.2.2.2.2.2.2.1 (by decide)⟩

/-- Claim C10: when no leaderboard blob was ever written, `getLeaderboard`
returns the empty sequence, and both `addToLeaderboard` and the filtered
view behave on the missing blob exactly as on an empty leaderboard
instead of failing. -/
theorem missing_blob_as_empty (summoner : Summoner) (leagues : List LeagueEntry)
    (region sel : String) (now : Nat) :
    getLeaderboard none = [] ∧
    getLeaderboard (addToLeaderboard none summoner leagues region now) =
      getLeaderboard (addToLeaderboard (some []) summoner leagues region now) ∧
    filterLeaderboardByRegion sel (getLeaderboard none) = [] := by
  refine ⟨rfl, ?_, ?_⟩
  · unfold addToLeaderboard
    cases findRankedSolo leagues <;> simp [getLeaderboard]
  · unfold filterLeaderboardByRegion getLeaderboard
    split <;> simp

theorem distinctKey_symm {p q : Player} (h : distinctKey p q) : distinctKey q p := by
  unfold distinctKey at *
  tauto

theorem sortLe_trans : ∀ a b c : Player, sortLe a b → sortLe b c → sortLe a c := by
  intro a b c h1 h2
  simp [sortLe] at *
  omega

theorem sortLe_total : ∀ a b : Player, sortLe a b || sortLe b a := by
  intro a b
  simp [sortLe]
  omega

theorem mergeSort_sortLe_sorted (l : List Player) :
    (l.mergeSort sortLe).Pairwise (fun a b => b.score ≤ a.score) := by
  have hs := List.sorted_mergeSort sortLe_trans sortLe_total l
  exact hs.imp (fun hab => by simpa [sortLe] using hab)

theorem identityErase_key_free (lb : List Player) (pd : Player)
    (h : lb.Pairwise distinctKey) :
    ∀ a ∈ identityErase lb pd, ¬(a.id = pd.id ∧ a.region = pd.region) := by
  induction lb with
  | nil => simp [identityErase]
  | cons x rest ih =>
    rw [List.pairwise_cons] at h
    intro a ha hk
    unfold identityErase at ha
    rw [List.eraseP_cons] at ha
    by_cases hx : x.id = pd.id ∧ x.region = pd.region
    · simp only [decide_eq_true hx, cond_true] at ha
      exact h.1 a ha ⟨hx.1.trans hk.1.symm, hx.2.trans hk.2.symm⟩
    · have hdx : decide (x.id = pd.id ∧ x.region = pd.region) = false :=
        decide_eq_false hx
      simp only [hdx, cond_false] at ha
      rcases List.mem_cons.mp ha with rfl | hmem
      · exact hx hk
      · exact ih h.2 a hmem hk

theorem upsertPlayer_nodup (lb : List Player) (pd : Player)
    (h : lb.Pairwise distinctKey) : (upsertPlayer lb pd).Pairwise distinctKey := by
  unfold upsertPlayer
  have h1 : (identityErase lb pd).Pairwise distinctKey :=
    List.Pairwise.sublist (List.eraseP_sublist lb) h
  have hfree := identityErase_key_free lb pd h
  have h2 : (identityErase lb pd ++ [pd]).Pairwise distinctKey := by
    rw [List.pairwise_append]
    refine ⟨h1, List.pairwise_singleton _ _, ?_⟩
    intro a ha b hb
    simp only [List.mem_singleton] at hb
    subst hb
    exact hfree a ha
  have hperm := List.mergeSort_perm (identityErase lb pd ++ [pd]) sortLe
  have h3 := (hperm.pairwise_iff (fun hx => distinctKey_symm hx)).mpr h2
  unfold truncate100
  split
  · exact List.Pairwise.sublist (List.take_sublist _ _) h3
  · exact h3

theorem upsertPlayer_sorted (lb : List Player) (pd : Player) :
    (upsertPlayer lb pd).Pairwise (fun a b => b.score ≤ a.score) := by
  unfold upsertPlayer truncate100
  have hs := mergeSort_sortLe_sorted (identityErase lb pd ++ [pd])
  split
  · exact List.Pairwise.sublist (List.take_sublist _ _) hs
  · exact hs

theorem upsertPlayer_length (lb : List Player) (pd : Player) :
    (upsertPlayer lb pd).length ≤ 100 := by
  unfold upsertPlayer truncate100
  split
  · simp [List.length_take]
  · omega

theorem upsertPlayer_dropped (lb : List Player) (pd : Player) :
    ∀ p ∈ identityErase lb pd ++ [pd], p ∉ upsertPlayer lb pd →
      ∀ q ∈ upsertPlayer lb pd, p.score ≤ q.score := by
  intro p hp hnp q hq
  unfold upsertPlayer truncate100 at hnp hq
  have hperm := List.mergeSort_perm (identityErase lb pd ++ [pd]) sortLe
  have hp3 : p ∈ (identityErase lb pd ++ [pd]).mergeSort sortLe := hperm.mem_iff.mpr hp
  by_cases hlen : 100 < ((identityErase lb pd ++ [pd]).mergeSort sortLe).length
  · rw [if_pos hlen] at hnp hq
    have hs := mergeSort_sortLe_sorted (identityErase lb pd ++ [pd])
    have hs2 : (((identityErase lb pd ++ [pd]).mergeSort sortLe).take 100 ++
        ((identityErase lb pd ++ [pd]).mergeSort sortLe).drop 100).Pairwise
          (fun a b => b.score ≤ a.score) := by
      rwa [List.take_append_drop]
    have hcross := (List.pairwise_append.mp hs2).2.2
    have hp' : p ∈ ((identityErase lb pd ++ [pd]).mergeSort sortLe).take 100 ++
        ((identityErase lb pd ++ [pd]).mergeSort sortLe).drop 100 := by
      rwa [List.take_append_drop]
    rcases List.mem_append.mp hp' with h1 | h2
    · exact absurd h1 hnp
    · exact hcross q hq p h2
  · rw [if_neg hlen] at hnp
    exact absurd hp3 hnp

/-- Claim C8: when the standings contain a ranked-solo entry,
`addToLeaderboard` on a prior leaderboard unique by `(playerId, region)`
removes any existing entry with the new observation's identity key,
inserts the new observation, re-sorts descending by score, truncates to
the first 100 entries (any dropped entry scores no more than every kept
one), and persists the result as the single stored blob — which is again
unique by identity key, sorted descending by score, and of length at
most 100. -/
theorem addToLeaderboard_upsert_invariants (stored : Option (List Player))
    (summoner : Summoner) (leagues : List LeagueEntry) (region : String) (now : Nat)
    (rankedData : LeagueEntry)
    (hranked : findRankedSolo leagues = some rankedData)
    (hnodup : (getLeaderboard stored).Pairwise distinctKey) :
    ∃ out : List Player,
      addToLeaderboard stored summoner leagues region now = some out ∧
      out = upsertPlayer (getLeaderboard stored)
        (buildPlayerData summoner rankedData region now) ∧
      out.Pairwise distinctKey ∧
      out.Pairwise (fun a b => b.score ≤ a.score) ∧
      out.length ≤ 100 ∧
      (∀ p ∈ identityErase (getLeaderboard stored)
            (buildPlayerData summoner rankedData region now) ++
          [buildPlayerData summoner rankedData region now],
        p ∉ out → ∀ q ∈ out, p.score ≤ q.score) := by
  refine ⟨upsertPlayer (getLeaderboard stored)
      (buildPlayerData summoner rankedData region now),
    by simp [addToLeaderboard, hranked], rfl,
    upsertPlayer_nodup _ _ hnodup, upsertPlayer_sorted _ _,
    upsertPlayer_length _ _, upsertPlayer_dropped _ _⟩

/-- Witness for `addToLeaderboard_upsert_invariants`: recording a Gold II
observation against the never-written blob. -/
theorem addToLeaderboard_upsert_invariants_witness :
    ∃ out : List Player,
      addToLeaderboard none wSummoner [wGold] "na1" 0 = some out ∧
      out = upsertPlayer (getLeaderboard none)
        (buildPlayerData wSummoner wGold "na1" 0) ∧
      out.Pairwise distinctKey ∧
      out.Pairwise (fun a b => b.score ≤ a.score) ∧
      out.length ≤ 100 ∧
      (∀ p ∈ identityErase (getLeaderboard none)
            (buildPlayerData wSummoner wGold "na1" 0) ++
          [buildPlayerData wSummoner wGold "na1" 0],
        p ∉ out → ∀ q ∈ out, p.score ≤ q.score) :=
  addToLeaderboard_upsert_invariants none wSummoner [wGold] "na1" 0 wGold
    (by decide) List.Pairwise.nil

theorem handleSearch_stored_cases (input region : String) (sc : Cache Summoner)
    (lc : Cache (List LeagueEntry)) (mc : Cache (List Mastery))
    (stored : Option (List Player)) (now : Nat) (net : NetworkOracle) :
    (handleSearch input region sc lc mc stored now net).stored = stored ∨
    ∃ s l m, (handleSearch input region sc lc mc stored now net).outcome =
        SearchOutcome.success s l m ∧
      (handleSearch input region sc lc mc stored now net).stored =
        addToLeaderboard stored s l region now := by
  simp only [handleSearch]
  split
  · left; rfl
  · split
    · left; rfl
    · split
      · left; rfl
      · split
        · left; rfl
        · split
          · left; rfl
          · right; exact ⟨_, _, _, rfl, rfl⟩

/-- Claim C9: if any of the three sequential resource fetches inside one
lookup fails, the whole lookup aborts with that single failure and the
persisted leaderboard blob is unchanged — no partial
identity/standings/masteries combination reaches `addToLeaderboard`. -/
theorem fetch_failure_preserves_leaderboard (input region : String) (sc : Cache Summoner)
    (lc : Cache (List LeagueEntry)) (mc : Cache (List Mastery))
    (stored : Option (List Player)) (now : Nat) (net : NetworkOracle)
    (h : ∃ e, (handleSearch input region sc lc mc stored now net).outcome =
      SearchOutcome.fetchFailed e) :
    (handleSearch input region sc lc mc stored now net).stored = stored := by
  rcases handleSearch_stored_cases input region sc lc mc stored now net with
    h1 | ⟨s, l, m, hsucc, _⟩
  · exact h1
  · obtain ⟨e, he⟩ := h
    rw [hsucc] at he
    simp at he

/-- Witness for `fetch_failure_preserves_leaderboard`: a search whose
summoner fetch fails at the connection level leaves the stored blob
untouched. -/
theorem fetch_failure_preserves_leaderboard_witness :
    (handleSearch "abc" "na1" [] [] [] (some []) 0 emptyOracle).stored = some [] :=
  fetch_failure_preserves_leaderboard "abc" "na1" [] [] [] (some []) 0 emptyOracle
    ⟨"Network error: Unable to connect to Riot Games API. Please check your internet connection.",
     by decide⟩

end RiftRewind
